import Mathlib

/-!
Verification of the thread-naming facility of kometa-dev/kineto.

The repository source under scrutiny is the shim header
`src/libkineto/src/oldWindowsKitCorrection.h`, which forward-declares the
Windows thread-description primitives for builds against old SDKs.  We embed
the header as a small C-declaration AST, faithful to the file line by line,
and prove the claimed properties of its declarations, preprocessor structure
and include semantics.  The platform backends and the public facility API are
not present in the source tree; where claims concern them, the definitions
are modelled from the specification and marked as such.
-/

namespace Kineto

/-- C type expressions appearing in the shim header. -/
inductive CType where
  | HANDLE
  | HRESULT
  | PCWSTR
  | PWSTR
  | ptr (t : CType)
deriving DecidableEq

/-- SAL annotations appearing in the shim header. -/
inductive SalAnn where
  | salIn
  | salOutptrResultZ
deriving DecidableEq

/-- A formal parameter of a C function declaration: SAL annotation plus type. -/
structure CParam where
  ann : SalAnn
  ty : CType
deriving DecidableEq

/-- A C function declaration as it appears in the header: storage-class macro
`WINBASEAPI`, return type, calling-convention macro `WINAPI`, name, and
parameter list in source order. -/
structure FunDecl where
  winbaseapi : Bool
  retTy : CType
  winapi : Bool
  name : String
  params : List CParam
deriving DecidableEq

/-- `SetThreadDescription` exactly as declared in
`oldWindowsKitCorrection.h` lines 7-13. -/
def setThreadDescriptionDecl : FunDecl :=
  { winbaseapi := true
    retTy := .HRESULT
    winapi := true
    name := "SetThreadDescription"
    params := [⟨.salIn, .HANDLE⟩, ⟨.salIn, .PCWSTR⟩] }

/-- `GetThreadDescription` exactly as declared in
`oldWindowsKitCorrection.h` lines 15-21. -/
def getThreadDescriptionDecl : FunDecl :=
  { winbaseapi := true
    retTy := .HRESULT
    winapi := true
    name := "GetThreadDescription"
    params := [⟨.salIn, .HANDLE⟩, ⟨.salOutptrResultZ, .ptr .PWSTR⟩] }

/-- Preprocessor guards a header element can sit under.  The shim uses only
`#ifdef __cplusplus`; the `sdkAtLeast` form (an `NTDDI_VERSION`-style check)
exists in the model so that its absence from the header is a provable fact. -/
inductive Guard where
  | noGuard
  | cplusplus
  | sdkAtLeast (v : Nat)
deriving DecidableEq

/-- A syntactic element of the header body. -/
inductive Element where
  | externCBegin
  | externCEnd
  | decl (d : FunDecl)
  | define (n : String)
deriving DecidableEq

/-- One guarded element of the header body. -/
structure Line where
  guard : Guard
  elem : Element
deriving DecidableEq

/-- A header file: the `#pragma once` flag plus the guarded body. -/
structure HeaderFile where
  pragmaOnce : Bool
  body : List Line
deriving DecidableEq

/-- The build configuration the preprocessor sees: whether the translation
unit is C++ (`__cplusplus` defined) and the target SDK version macro. -/
structure Config where
  cplusplus : Bool
  sdkVersion : Nat

/-- Whether a guard admits its element under a configuration. -/
def Guard.active (cfg : Config) : Guard → Bool
  | .noGuard => true
  | .cplusplus => cfg.cplusplus
  | .sdkAtLeast v => decide (v ≤ cfg.sdkVersion)

/-- `oldWindowsKitCorrection.h`, line by line: `#pragma once`; an
`extern "C" {` under `#ifdef __cplusplus`; the two declarations,
unconditional; the closing brace under `#ifdef __cplusplus`. -/
def oldWindowsKitCorrection : HeaderFile :=
  { pragmaOnce := true
    body :=
      [⟨.cplusplus, .externCBegin⟩,
       ⟨.noGuard, .decl setThreadDescriptionDecl⟩,
       ⟨.noGuard, .decl getThreadDescriptionDecl⟩,
       ⟨.cplusplus, .externCEnd⟩] }

/-- The elements a single inclusion of a header emits under a configuration. -/
def emit (cfg : Config) (h : HeaderFile) : List Element :=
  (h.body.filter fun l => l.guard.active cfg).map Line.elem

/-- The function declarations among emitted elements. -/
def declsOf (es : List Element) : List FunDecl :=
  es.filterMap fun e =>
    match e with
    | .decl d => some d
    | _ => none

/-- The function declarations a single inclusion emits. -/
def emitDecls (cfg : Config) (h : HeaderFile) : List FunDecl :=
  declsOf (emit cfg h)

/-- Each emitted declaration paired with the `extern "C"` nesting depth at
which it appears in the emitted element stream. -/
def declsWithDepth : Nat → List Element → List (FunDecl × Nat)
  | _, [] => []
  | d, .externCBegin :: r => declsWithDepth (d + 1) r
  | d, .externCEnd :: r => declsWithDepth (d - 1) r
  | d, .decl f :: r => (f, d) :: declsWithDepth d r
  | d, .define _ :: r => declsWithDepth d r

/-- A declaration's linkage under a configuration: C linkage when the unit is
compiled as C, or when the declaration sits inside an `extern "C"` block. -/
def hasCLinkage (cfg : Config) (depth : Nat) : Bool :=
  !cfg.cplusplus || decide (0 < depth)

/-- Translation-unit declaration environment: adding a declaration whose name
is already declared is a no-op when the signatures are identical and an error
(conflicting declaration) otherwise, per C/C++ redeclaration rules. -/
def addDecl (env : List FunDecl) (d : FunDecl) : Option (List FunDecl) :=
  match env.find? (fun e => e.name == d.name) with
  | some e => if e = d then some env else none
  | none => some (env ++ [d])

/-- Fold a list of declarations into an environment. -/
def addDecls (env : List FunDecl) (ds : List FunDecl) : Option (List FunDecl) :=
  ds.foldlM addDecl env

/-- The elements produced by including a header `n` times in one translation
unit: with `#pragma once` only the first inclusion emits the body. -/
def includeTimes (cfg : Config) (h : HeaderFile) (n : Nat) : List Element :=
  if h.pragmaOnce then
    if n = 0 then [] else emit cfg h
  else
    (List.replicate n (emit cfg h)).flatten

/-- The identifiers a C type expression spells out (`*` is not an identifier). -/
def CType.spelling : CType → List String
  | .HANDLE => ["HANDLE"]
  | .HRESULT => ["HRESULT"]
  | .PCWSTR => ["PCWSTR"]
  | .PWSTR => ["PWSTR"]
  | .ptr t => t.spelling

/-- The source spelling of a SAL annotation. -/
def SalAnn.spelling : SalAnn → String
  | .salIn => "_In_"
  | .salOutptrResultZ => "_Outptr_result_z_"

/-- The identifiers a declaration uses that must be defined elsewhere: the
storage/calling-convention macros, the return type, and for each parameter
its SAL annotation and type names. -/
def FunDecl.usedNames (d : FunDecl) : List String :=
  (if d.winbaseapi then ["WINBASEAPI"] else [])
    ++ d.retTy.spelling
    ++ (if d.winapi then ["WINAPI"] else [])
    ++ d.params.flatMap fun p => p.ann.spelling :: p.ty.spelling

/-- All identifiers a header file uses. -/
def HeaderFile.usedNames (h : HeaderFile) : List String :=
  h.body.flatMap fun l =>
    match l.elem with
    | .decl d => d.usedNames
    | _ => []

/-- All identifiers a header file itself defines (via `#define` lines). -/
def HeaderFile.definedNames (h : HeaderFile) : List String :=
  h.body.filterMap fun l =>
    match l.elem with
    | .define n => some n
    | _ => none

/-- A header is self-contained when every name it uses it also defines. -/
def HeaderFile.selfContained (h : HeaderFile) : Prop :=
  ∀ n ∈ h.usedNames, n ∈ h.definedNames

instance (h : HeaderFile) : Decidable h.selfContained :=
  inferInstanceAs (Decidable (∀ n ∈ h.usedNames, n ∈ h.definedNames))

/- ------------------------------------------------------------------
The thread-naming facility.  The platform backends and public API are not in
the source tree (only the declaration shim is); the following definitions are
modelled from the specification.
------------------------------------------------------------------ -/

/-- Modelled from the spec: the error taxonomy of §7 — `Unsupported`,
`InvalidName`, `NativeFailure` (preserving the native status code) and
`NotFound`.  The backend code carrying it is absent from the source tree. -/
inductive NamingError where
  | Unsupported
  | InvalidName
  | NativeFailure (code : Int)
  | NotFound
deriving DecidableEq

/-- A thread identifier, opaque to the facility. -/
abbrev ThreadId := Nat

/-- A thread name: a short text value, modelled as its character list. -/
abbrev ThreadName := List Char

/-- The OS-owned name slots: one name per thread, empty by default. -/
abbrev NameState := ThreadId → ThreadName

/-- Modelled from the spec: `SetThreadName` on a length-limited truncating
platform — the calling thread's own slot receives the name, truncated to the
platform limit `L` (§4.2: truncation rather than failure).  The backend code
is absent from the source tree. -/
def setThreadName (L : Nat) (caller : ThreadId) (n : ThreadName)
    (σ : NameState) : NameState :=
  Function.update σ caller (n.take L)

/-- Modelled from the spec: `GetThreadName` returns the OS-recorded name for
the given thread as a typed success.  The backend code is absent from the
source tree. -/
def getThreadName (σ : NameState) (h : ThreadId) : Except NamingError ThreadName :=
  .ok (σ h)

/-- Modelled from the spec: the no-op backend's write operation — on a
platform with no naming primitive, setting a name is silent success for any
input (§4.2).  The backend code is absent from the source tree. -/
def noopSetThreadName (_n : ThreadName) : Except NamingError Unit :=
  .ok ()

/-- Modelled from the spec: the no-op backend's read operation — success with
an empty name, for any handle (§4.2).  The backend code is absent from the
source tree. -/
def noopGetThreadName (_h : ThreadId) : Except NamingError ThreadName :=
  .ok []

/-- Modelled from the spec: the facility's normalization of the write path's
native outcome.  `hasPrimitive` is the build-time capability; `code` is the
native `HRESULT` (success iff non-negative).  A native failure becomes a typed
`NativeFailure`; only the no-primitive case is silent success (§7). -/
def setThreadNameResult (hasPrimitive : Bool) (code : Int) :
    Except NamingError Unit :=
  if hasPrimitive then
    if 0 ≤ code then .ok () else .error (.NativeFailure code)
  else
    .ok ()

/-- Modelled from the spec: the facility's normalization of the read path's
native outcome, returning the fetched name on native success. -/
def getThreadNameResult (hasPrimitive : Bool) (code : Int) (fetched : ThreadName) :
    Except NamingError ThreadName :=
  if hasPrimitive then
    if 0 ≤ code then .ok fetched else .error (.NativeFailure code)
  else
    .ok []

/- ------------------------------------------------------------------
Theorems, one per claim.
------------------------------------------------------------------ -/

/-- C1: under every build configuration, the header's emitted declaration
named `SetThreadDescription` takes a `HANDLE` then a `PCWSTR`, in that order
and nothing else, and returns `HRESULT`. -/
theorem C1_setThreadDescription_shape (cfg : Config) :
    (emitDecls cfg oldWindowsKitCorrection).find?
        (fun d => d.name == "SetThreadDescription") =
      some setThreadDescriptionDecl
    ∧ setThreadDescriptionDecl.retTy = .HRESULT
    ∧ setThreadDescriptionDecl.params.map CParam.ty = [.HANDLE, .PCWSTR] := by
  obtain ⟨cp, sdk⟩ := cfg
  cases cp <;> exact ⟨rfl, rfl, rfl⟩

/-- C2: under every build configuration, the header's emitted declaration
named `GetThreadDescription` takes a `HANDLE` then a `PWSTR*` out-parameter
annotated `_Outptr_result_z_`, and returns `HRESULT`. -/
theorem C2_getThreadDescription_shape (cfg : Config) :
    (emitDecls cfg oldWindowsKitCorrection).find?
        (fun d => d.name == "GetThreadDescription") =
      some getThreadDescriptionDecl
    ∧ getThreadDescriptionDecl.retTy = .HRESULT
    ∧ getThreadDescriptionDecl.params.map CParam.ty = [.HANDLE, .ptr .PWSTR]
    ∧ getThreadDescriptionDecl.params.map CParam.ann =
        [.salIn, .salOutptrResultZ] := by
  obtain ⟨cp, sdk⟩ := cfg
  cases cp <;> exact ⟨rfl, rfl, rfl, rfl⟩

/-- C3: the header's declarations are emitted under every configuration (no
SDK-version conditional gates them), and in a translation unit that already
declares both primitives with matching signatures, including the shim leaves
the declaration environment unchanged. -/
theorem C3_no_contribution_when_present (cfg : Config) (env : List FunDecl)
    (hs : env.find? (fun e => e.name == "SetThreadDescription") =
      some setThreadDescriptionDecl)
    (hg : env.find? (fun e => e.name == "GetThreadDescription") =
      some getThreadDescriptionDecl) :
    emitDecls cfg oldWindowsKitCorrection =
      [setThreadDescriptionDecl, getThreadDescriptionDecl]
    ∧ addDecls env (emitDecls cfg oldWindowsKitCorrection) = some env := by
  have hemit : emitDecls cfg oldWindowsKitCorrection =
      [setThreadDescriptionDecl, getThreadDescriptionDecl] := by
    obtain ⟨cp, sdk⟩ := cfg
    cases cp <;> rfl
  have h1 : addDecl env setThreadDescriptionDecl = some env := by
    unfold addDecl
    rw [show List.find? (fun e => e.name == setThreadDescriptionDecl.name) env =
      some setThreadDescriptionDecl from hs]
    simp
  have h2 : addDecl env getThreadDescriptionDecl = some env := by
    unfold addDecl
    rw [show List.find? (fun e => e.name == getThreadDescriptionDecl.name) env =
      some getThreadDescriptionDecl from hg]
    simp
  refine ⟨hemit, ?_⟩
  rw [hemit]
  simp [addDecls, List.foldlM, h1, h2]

/-- Witness for C3: a concrete environment already holding both declarations
is left unchanged by including the shim. -/
theorem C3_no_contribution_when_present_witness :
    emitDecls ⟨true, 0⟩ oldWindowsKitCorrection =
      [setThreadDescriptionDecl, getThreadDescriptionDecl]
    ∧ addDecls [setThreadDescriptionDecl, getThreadDescriptionDecl]
        (emitDecls ⟨true, 0⟩ oldWindowsKitCorrection) =
      some [setThreadDescriptionDecl, getThreadDescriptionDecl] :=
  C3_no_contribution_when_present ⟨true, 0⟩
    [setThreadDescriptionDecl, getThreadDescriptionDecl] (by rfl) (by rfl)

/-- C4: every declaration the header emits is marked `WINBASEAPI` and
`WINAPI`, and when compiled as C++ each of the two declarations sits at
`extern "C"` depth 1, so both have unmangled C linkage. -/
theorem C4_linkage (cfg : Config) (hcpp : cfg.cplusplus = true) :
    (∀ d ∈ emitDecls cfg oldWindowsKitCorrection,
      d.winbaseapi = true ∧ d.winapi = true)
    ∧ declsWithDepth 0 (emit cfg oldWindowsKitCorrection) =
        [(setThreadDescriptionDecl, 1), (getThreadDescriptionDecl, 1)]
    ∧ ∀ p ∈ declsWithDepth 0 (emit cfg oldWindowsKitCorrection),
        hasCLinkage cfg p.2 = true := by
  obtain ⟨cp, sdk⟩ := cfg
  cases cp
  · simp at hcpp
  · refine ⟨?_, rfl, ?_⟩
    · intro d hd
      have : d = setThreadDescriptionDecl ∨ d = getThreadDescriptionDecl := by
        simpa [emitDecls, emit, declsOf, oldWindowsKitCorrection,
          Guard.active] using hd
      rcases this with h | h <;> subst h <;> exact ⟨rfl, rfl⟩
    · intro p hp
      rw [show declsWithDepth 0
          (emit ⟨true, sdk⟩ oldWindowsKitCorrection) =
          [(setThreadDescriptionDecl, 1), (getThreadDescriptionDecl, 1)]
        from rfl] at hp
      simp only [List.mem_cons, List.not_mem_nil, or_false] at hp
      rcases hp with h | h <;> subst h <;> rfl

/-- Witness for C4: at the concrete C++ configuration the marks and the
`extern "C"` depth are as stated. -/
theorem C4_linkage_witness :
    (∀ d ∈ emitDecls ⟨true, 0⟩ oldWindowsKitCorrection,
      d.winbaseapi = true ∧ d.winapi = true)
    ∧ declsWithDepth 0 (emit ⟨true, 0⟩ oldWindowsKitCorrection) =
        [(setThreadDescriptionDecl, 1), (getThreadDescriptionDecl, 1)]
    ∧ ∀ p ∈ declsWithDepth 0 (emit ⟨true, 0⟩ oldWindowsKitCorrection),
        hasCLinkage ⟨true, 0⟩ p.2 = true :=
  C4_linkage ⟨true, 0⟩ rfl

/-- C5: the header carries `#pragma once`, so including it any positive
number of times in one translation unit emits each of the two declarations
exactly once. -/
theorem C5_pragma_once (cfg : Config) (n : Nat) (hn : 1 ≤ n) :
    oldWindowsKitCorrection.pragmaOnce = true
    ∧ (declsOf (includeTimes cfg oldWindowsKitCorrection n)).count
        setThreadDescriptionDecl = 1
    ∧ (declsOf (includeTimes cfg oldWindowsKitCorrection n)).count
        getThreadDescriptionDecl = 1 := by
  have hn0 : n ≠ 0 := Nat.one_le_iff_ne_zero.mp hn
  have hinc : includeTimes cfg oldWindowsKitCorrection n =
      emit cfg oldWindowsKitCorrection := by
    simp [includeTimes, oldWindowsKitCorrection, hn0]
  refine ⟨rfl, ?_, ?_⟩ <;>
    · rw [hinc]
      obtain ⟨cp, sdk⟩ := cfg
      cases cp <;> rfl

/-- Witness for C5: including the header twice under a concrete C++
configuration still emits each declaration once. -/
theorem C5_pragma_once_witness :
    oldWindowsKitCorrection.pragmaOnce = true
    ∧ (declsOf (includeTimes ⟨true, 0⟩ oldWindowsKitCorrection 2)).count
        setThreadDescriptionDecl = 1
    ∧ (declsOf (includeTimes ⟨true, 0⟩ oldWindowsKitCorrection 2)).count
        getThreadDescriptionDecl = 1 :=
  C5_pragma_once ⟨true, 0⟩ 2 (by decide)

/-- C6: round-trip — for any name within the platform's length limit, setting
the calling thread's name and reading it back returns exactly that name. -/
theorem C6_round_trip (L : Nat) (caller : ThreadId) (n : ThreadName)
    (σ : NameState) (hlen : n.length ≤ L) :
    getThreadName (setThreadName L caller n σ) caller = .ok n := by
  simp [getThreadName, setThreadName, Function.update_same,
    List.take_of_length_le hlen]

/-- Witness for C6: a concrete short name round-trips through a limit-15
platform. -/
theorem C6_round_trip_witness :
    getThreadName (setThreadName 15 0 ['g', 'p', 'u'] (fun _ => [])) 0 =
      .ok ['g', 'p', 'u'] :=
  C6_round_trip 15 0 ['g', 'p', 'u'] (fun _ => []) (by decide)

/-- C7: on the no-op backend, setting any name is success and reading any
handle is success with the empty name. -/
theorem C7_noop_backend (n : ThreadName) (h : ThreadId) :
    noopSetThreadName n = .ok () ∧ noopGetThreadName h = .ok [] :=
  ⟨rfl, rfl⟩

/-- C8: every error is a typed value of the four-case taxonomy; a failing
native call surfaces as `NativeFailure` with its code on both paths, never as
success; only the no-primitive case is silent success. -/
theorem C8_error_propagation (code : Int) (fetched : ThreadName)
    (hfail : code < 0) :
    (∀ e : NamingError, e = .Unsupported ∨ e = .InvalidName ∨
      (∃ c, e = .NativeFailure c) ∨ e = .NotFound)
    ∧ setThreadNameResult true code = .error (.NativeFailure code)
    ∧ getThreadNameResult true code fetched = .error (.NativeFailure code)
    ∧ setThreadNameResult false code = .ok ()
    ∧ getThreadNameResult false code fetched = .ok [] := by
  have hnot : ¬ (0 ≤ code) := not_le.mpr hfail
  refine ⟨?_, ?_, ?_, rfl, rfl⟩
  · intro e
    cases e with
    | Unsupported => exact Or.inl rfl
    | InvalidName => exact Or.inr (Or.inl rfl)
    | NativeFailure c => exact Or.inr (Or.inr (Or.inl ⟨c, rfl⟩))
    | NotFound => exact Or.inr (Or.inr (Or.inr rfl))
  · simp [setThreadNameResult, hnot]
  · simp [getThreadNameResult, hnot]

/-- Witness for C8: at the concrete failing native code `-1` the facility
returns `NativeFailure (-1)` on both paths. -/
theorem C8_error_propagation_witness :
    (∀ e : NamingError, e = .Unsupported ∨ e = .InvalidName ∨
      (∃ c, e = .NativeFailure c) ∨ e = .NotFound)
    ∧ setThreadNameResult true (-1) = .error (.NativeFailure (-1))
    ∧ getThreadNameResult true (-1) ['x'] = .error (.NativeFailure (-1))
    ∧ setThreadNameResult false (-1) = .ok ()
    ∧ getThreadNameResult false (-1) ['x'] = .ok [] :=
  C8_error_propagation (-1) ['x'] (by decide)

/-- C9: cross-thread isolation — thread A setting its own name leaves the
name observed for any distinct thread B unchanged. -/
theorem C9_cross_thread_isolation (L : Nat) (a b : ThreadId) (n : ThreadName)
    (σ : NameState) (hab : b ≠ a) :
    getThreadName (setThreadName L a n σ) b = getThreadName σ b := by
  simp [getThreadName, setThreadName, Function.update_noteq hab]

/-- Witness for C9: thread 0 naming itself leaves thread 1's name unchanged
in a concrete state. -/
theorem C9_cross_thread_isolation_witness :
    getThreadName (setThreadName 15 0 ['a'] (fun _ => ['z'])) 1 =
      getThreadName (fun _ => ['z']) 1 :=
  C9_cross_thread_isolation 15 0 1 ['a'] (fun _ => ['z']) (by decide)

/-- The eight identifiers the shim relies on the Windows SDK base headers to
define. -/
def sdkProvidedNames : List String :=
  ["HANDLE", "HRESULT", "PCWSTR", "PWSTR", "WINBASEAPI", "WINAPI",
   "_In_", "_Outptr_result_z_"]

/-- C10: the shim header defines none of the eight identifiers it uses
(`HANDLE`, `HRESULT`, `PCWSTR`, `PWSTR`, `WINBASEAPI`, `WINAPI`, `_In_`,
`_Outptr_result_z_`), so it is not self-contained: every one of those names
must be provided by headers included before it. -/
theorem C10_requires_sdk_headers :
    oldWindowsKitCorrection.definedNames = []
    ∧ (∀ n ∈ oldWindowsKitCorrection.usedNames, n ∈ sdkProvidedNames)
    ∧ (∀ n ∈ sdkProvidedNames, n ∈ oldWindowsKitCorrection.usedNames)
    ∧ ¬ oldWindowsKitCorrection.selfContained := by
  refine ⟨rfl, by decide, by decide, ?_⟩
  intro h
  have := h "HANDLE" (by decide)
  simp [HeaderFile.definedNames, oldWindowsKitCorrection] at this

end Kineto
